import Mathlib

/-!
Shallow embedding of the `aurars` utility library
(`src/either.rs`, `src/pipe.rs`, `src/recur.rs`) and proofs of its
specified properties.
-/

namespace Aurars

/-- `Either<L, R>` from `src/either.rs`: a type that represents one of two
possible values, `Left(L)` or `Right(R)`. -/
inductive Either (L R : Type) where
  | Left : L → Either L R
  | Right : R → Either L R
deriving DecidableEq

/-- `Either::is_left`: returns `true` if the value is `Left`. -/
def Either.is_left {L R : Type} : Either L R → Bool
  | Either.Left _ => true
  | _ => false

/-- `Either::is_right`: returns `true` if the value is `Right`. -/
def Either.is_right {L R : Type} : Either L R → Bool
  | Either.Right _ => true
  | _ => false

/-- `Either::left`: converts `Either<L, R>` to `Option<L>`, discarding the
`Right` value, if `Right`. -/
def Either.left {L R : Type} : Either L R → Option L
  | Either.Left l => some l
  | Either.Right _ => none

/-- `Either::right`: converts `Either<L, R>` to `Option<R>`, discarding the
`Left` value, if `Left`. -/
def Either.right {L R : Type} : Either L R → Option R
  | Either.Left _ => none
  | Either.Right r => some r

/-- `Either::as_left`: converts `Option<L>` to `Either<L, ()>`. -/
def Either.as_left {L : Type} : Option L → Either L Unit
  | some l => Either.Left l
  | none => Either.Right ()

/-- `Either::as_right`: converts `Option<R>` to `Either<(), R>`. -/
def Either.as_right {R : Type} : Option R → Either Unit R
  | some r => Either.Right r
  | none => Either.Left ()

/-- `Either::unwrap_left`: unwraps the value if it is `Left`; panics if the
value is `Right`. The panic is modelled as `none`. -/
def Either.unwrap_left {L R : Type} : Either L R → Option L
  | Either.Left l => some l
  | Either.Right _ => none

/-- `Either::unwrap_right`: unwraps the value if it is `Right`; panics if the
value is `Left`. The panic is modelled as `none`. -/
def Either.unwrap_right {L R : Type} : Either L R → Option R
  | Either.Left _ => none
  | Either.Right r => some r

/-- `Either::map_either`: applies `f` to the `Left` value, if `Left`, or `g`
to the `Right` value, if `Right`. -/
def Either.map_either {L R T U : Type} (f : L → T) (g : R → U) :
    Either L R → Either T U
  | Either.Left l => Either.Left (f l)
  | Either.Right r => Either.Right (g r)

/-- `Either::map_left`: applies `f` to the `Left` value, if `Left`. -/
def Either.map_left {L R U : Type} (f : L → U) : Either L R → Either U R
  | Either.Left l => Either.Left (f l)
  | Either.Right r => Either.Right r

/-- `Either::map_right`: applies `f` to the `Right` value, if `Right`. -/
def Either.map_right {L R U : Type} (f : R → U) : Either L R → Either L U
  | Either.Left l => Either.Left l
  | Either.Right r => Either.Right (f r)

/-- `Either::swap`: swaps `Either<L, R>` to `Either<R, L>`. -/
def Either.swap {L R : Type} : Either L R → Either R L
  | Either.Left l => Either.Right l
  | Either.Right r => Either.Left r

/-- Rust's `Result<L, R>` as used by the `From` conversions in
`src/either.rs`. -/
inductive Result (L R : Type) where
  | Ok : L → Result L R
  | Err : R → Result L R
deriving DecidableEq

/-- `impl From<Result<L, R>> for Either<L, R>`: `Ok(l)` becomes `Left(l)`,
`Err(r)` becomes `Right(r)`. -/
def Either.from_result {L R : Type} : Result L R → Either L R
  | Result.Ok l => Either.Left l
  | Result.Err r => Either.Right r

/-- `impl From<Either<L, R>> for Result<L, R>`: `Left(l)` becomes `Ok(l)`,
`Right(r)` becomes `Err(r)`. -/
def Either.to_result {L R : Type} : Either L R → Result L R
  | Either.Left l => Result.Ok l
  | Either.Right r => Result.Err r

/-- The derived `Ord for Either<L, R>` (`#[derive(PartialOrd, Ord)]` in
`src/either.rs`): variants compare by declaration order, `Left` before
`Right`; equal variants compare by their payloads, using the payload
comparator. -/
def Either.cmp {L R : Type} (cmpl : L → L → Ordering) (cmpr : R → R → Ordering) :
    Either L R → Either L R → Ordering
  | Either.Left a, Either.Left b => cmpl a b
  | Either.Left _, Either.Right _ => Ordering.lt
  | Either.Right _, Either.Left _ => Ordering.gt
  | Either.Right a, Either.Right b => cmpr a b

/-- The derived `PartialEq for Either<L, R>` (`#[derive(PartialEq)]` in
`src/either.rs`): values of different variants are unequal; values of the
same variant compare their payloads with the payload equality. -/
def Either.beq {L R : Type} (eql : L → L → Bool) (eqr : R → R → Bool) :
    Either L R → Either L R → Bool
  | Either.Left a, Either.Left b => eql a b
  | Either.Right a, Either.Right b => eqr a b
  | _, _ => false

/-- `Pipe<T>` from `src/pipe.rs`: a single-value wrapper. -/
structure Pipe (T : Type) where
  val : T

/-- `Pipe::new`. -/
def Pipe.new {T : Type} (t : T) : Pipe T := Pipe.mk t

/-- `Pipe::pipe`: applies `f` to the wrapped value. -/
def Pipe.pipe {T B : Type} (p : Pipe T) (f : T → B) : Pipe B := Pipe.mk (f p.val)

/-- `Pipe::into_inner`: extracts the wrapped value. -/
def Pipe.into_inner {T : Type} (p : Pipe T) : T := p.val

/-- `std::ops::ControlFlow<B, C>` as used by `src/recur.rs`. -/
inductive ControlFlow (B C : Type) where
  | Continue : C → ControlFlow B C
  | Break : B → ControlFlow B C
deriving DecidableEq

/-- `recur` from `src/recur.rs`, with an explicit fuel bound standing for the
number of loop iterations allowed: every iteration calls `f` with the current
value; on `Continue(c)` the current value is replaced by `c` and the loop
iterates, on `Break(b)` the loop stops and `b` is returned. `none` means the
fuel ran out before the loop broke. -/
def recurFuel {C B : Type} (f : C → ControlFlow B C) : Nat → C → Option B
  | 0, _ => none
  | n + 1, c =>
    match f c with
    | ControlFlow.Continue c' => recurFuel f n c'
    | ControlFlow.Break b => some b

/-- `recur` instrumented with a counter of how many times `f` has been
invoked: the result pairs the break value with the total invocation count. -/
def recurCount {C B : Type} (f : C → ControlFlow B C) :
    Nat → C → Nat → Option (B × Nat)
  | 0, _, _ => none
  | n + 1, c, k =>
    match f c with
    | ControlFlow.Continue c' => recurCount f n c' (k + 1)
    | ControlFlow.Break b => some (b, k + 1)

/-- Iterating the step function through `k` consecutive `Continue` results:
`some ck` when starting from `c` the function returns `Continue` at each of
the `k` steps, reaching state `ck`; `none` if a `Break` occurs earlier. -/
def iterCont {C B : Type} (f : C → ControlFlow B C) : Nat → C → Option C
  | 0, c => some c
  | n + 1, c =>
    match f c with
    | ControlFlow.Continue c' => iterCont f n c'
    | ControlFlow.Break _ => none

/-- The step function of the counted-loop scenario in the spec and in the
test of `src/recur.rs`: `Continue(state + 1)` while `state < 10`, otherwise
`Break(stringify(state))`. -/
def countStep (state : Nat) : ControlFlow String Nat :=
  if state < 10 then ControlFlow.Continue (state + 1)
  else ControlFlow.Break (toString state)

/-- The loop semantics of `recur`: if iterating the step function from `c`
yields `Continue` for `k` consecutive steps reaching state `ck`, and `f ck`
is `Break b`, then `recur` (with any sufficient fuel) returns `b`. -/
theorem recurFuel_of_iterCont {σ τ : Type} (f : σ → ControlFlow τ σ) :
    ∀ (k : Nat) (c ck : σ) (b : τ), iterCont f k c = some ck →
      f ck = ControlFlow.Break b → ∀ n, k < n → recurFuel f n c = some b := by
  intro k
  induction k with
  | zero =>
    intro c ck b hiter hbreak n hn
    have hc : c = ck := by simpa [iterCont] using hiter
    subst hc
    cases n with
    | zero => exact absurd hn (by omega)
    | succ m => simp [recurFuel, hbreak]
  | succ k ih =>
    intro c ck b hiter hbreak n hn
    cases hfc : f c with
    | Continue c' =>
      have hiter' : iterCont f k c' = some ck := by
        simpa [iterCont, hfc] using hiter
      cases n with
      | zero => exact absurd hn (by omega)
      | succ m =>
        have hm : recurFuel f m c' = some b := ih c' ck b hiter' hbreak m (by omega)
        simp [recurFuel, hfc, hm]
    | Break b' => simp [iterCont, hfc] at hiter

/-- C1: for every initial state `c` and step function `f` that eventually
breaks, `recur` returns the payload of the first `Break`: while `f` returns
`Continue(c')` the loop replaces the state with `c'` and iterates, and on the
first `Break(b)` it stops and returns `b`; concretely, from initial state `0`
with the step function returning `Continue(state + 1)` when `state < 10` and
`Break(stringify(state))` otherwise, `recur` returns the string `"10"`. -/
theorem recur_spec :
    (∀ (σ τ : Type) (f : σ → ControlFlow τ σ) (k : Nat) (c ck : σ) (b : τ),
      iterCont f k c = some ck → f ck = ControlFlow.Break b →
      ∀ n, k < n → recurFuel f n c = some b)
    ∧ recurFuel countStep 11 0 = some "10" :=
  ⟨fun _ _ f => recurFuel_of_iterCont f, rfl⟩

/-- Witness for C1 at the concrete counted loop: ten `Continue` steps from
`0` reach `10`, where the step breaks with `"10"`. -/
theorem recur_spec_witness : recurFuel countStep 12 0 = some "10" :=
  recur_spec.1 Nat String countStep 10 0 10 "10" rfl rfl 12 (by omega)

/-- C2: `as_left(None)` equals `Right(unit)`, `as_right(None)` equals
`Left(unit)`, `as_left(Some(v))` equals `Left(v)` and `as_right(Some(v))`
equals `Right(v)`. -/
theorem as_left_as_right_spec :
    (∀ (α : Type), @Either.as_left α none = Either.Right ())
    ∧ (∀ (β : Type), @Either.as_right β none = Either.Left ())
    ∧ (∀ (α : Type) (v : α), Either.as_left (some v) = Either.Left v)
    ∧ (∀ (β : Type) (v : β), Either.as_right (some v) = Either.Right v) :=
  ⟨fun _ => rfl, fun _ => rfl, fun _ _ => rfl, fun _ _ => rfl⟩

/-- C3: `unwrap_left` on a `Right` value panics (modelled as `none`) and on
`Left(l)` returns `l`; symmetrically `unwrap_right` panics on a `Left` value
and returns the payload of a `Right` value. -/
theorem unwrap_spec :
    ∀ (α β : Type) (l : α) (r : β),
      (Either.Right r : Either α β).unwrap_left = none
      ∧ (Either.Left l : Either α β).unwrap_left = some l
      ∧ (Either.Left l : Either α β).unwrap_right = none
      ∧ (Either.Right r : Either α β).unwrap_right = some r :=
  fun _ _ _ _ => ⟨rfl, rfl, rfl, rfl⟩

/-- C4: conversion between `Either` and `Result` is a lossless round trip in
both directions: `Left(l)` converts to `Ok(l)` and back to `Left(l)`,
`Right(r)` converts to `Err(r)` and back to `Right(r)`, and every `Result`
converts to `Either` and back to the identical `Result`. -/
theorem result_round_trip :
    (∀ (α β : Type) (l : α),
      (Either.Left l : Either α β).to_result = Result.Ok l
      ∧ Either.from_result (Either.Left l : Either α β).to_result = Either.Left l)
    ∧ (∀ (α β : Type) (r : β),
      (Either.Right r : Either α β).to_result = Result.Err r
      ∧ Either.from_result (Either.Right r : Either α β).to_result = Either.Right r)
    ∧ (∀ (α β : Type) (x : Result α β), (Either.from_result x).to_result = x)
    ∧ (∀ (α β : Type) (x : Either α β), Either.from_result x.to_result = x) := by
  refine ⟨fun α β l => ⟨rfl, rfl⟩, fun α β r => ⟨rfl, rfl⟩,
    fun α β x => ?_, fun α β x => ?_⟩ <;> cases x <;> rfl

/-- C5: for every initial state and every step function that returns
`Break(b)` on its very first call regardless of input, `recur` returns
exactly `b` and the step function is invoked exactly once. -/
theorem recur_break_first :
    ∀ (σ τ : Type) (f : σ → ControlFlow τ σ) (b : τ),
      (∀ c, f c = ControlFlow.Break b) →
      ∀ (c : σ) (n : Nat),
        recurFuel f (n + 1) c = some b
        ∧ recurCount f (n + 1) c 0 = some (b, 1) := by
  intro σ τ f b h c n
  exact ⟨by simp [recurFuel, h c], by simp [recurCount, h c]⟩

/-- Witness for C5 with the constant step function breaking with `7`. -/
theorem recur_break_first_witness :
    recurFuel (fun _ : Nat => ControlFlow.Break (7 : Nat)) 1 0 = some 7
    ∧ recurCount (fun _ : Nat => ControlFlow.Break (7 : Nat)) 1 0 0 = some (7, 1) :=
  recur_break_first Nat Nat (fun _ => ControlFlow.Break 7) 7 (fun _ => rfl) 0 0

/-- C6: `Left(l)` satisfies `is_left() == true`, `is_right() == false`,
`left() == Some(l)` and `right() == None`; symmetrically `Right(r)` satisfies
`is_right() == true`, `is_left() == false`, `right() == Some(r)` and
`left() == None`. -/
theorem variant_observers_spec :
    ∀ (α β : Type) (l : α) (r : β),
      (Either.Left l : Either α β).is_left = true
      ∧ (Either.Left l : Either α β).is_right = false
      ∧ (Either.Left l : Either α β).left = some l
      ∧ (Either.Left l : Either α β).right = none
      ∧ (Either.Right r : Either α β).is_right = true
      ∧ (Either.Right r : Either α β).is_left = false
      ∧ (Either.Right r : Either α β).right = some r
      ∧ (Either.Right r : Either α β).left = none :=
  fun _ _ _ _ => ⟨rfl, rfl, rfl, rfl, rfl, rfl, rfl, rfl⟩

/-- C7: mapping the left side twice composes, `map_left(f)` then
`map_left(g)` equals `map_left(compose(g, f))`; on a `Right` value both
sides leave the payload unchanged; and `map_either(identity, identity)`
returns an equal value (functor identity). -/
theorem functor_laws :
    (∀ (α β γ δ : Type) (x : Either α δ) (f : α → β) (g : β → γ),
      (x.map_left f).map_left g = x.map_left (g ∘ f))
    ∧ (∀ (α β γ δ : Type) (r : δ) (f : α → β) (g : β → γ),
      ((Either.Right r : Either α δ).map_left f).map_left g = Either.Right r)
    ∧ (∀ (α β : Type) (x : Either α β), x.map_either id id = x) := by
  refine ⟨fun α β γ δ x f g => ?_, fun α β γ δ r f g => rfl,
    fun α β x => ?_⟩ <;> cases x <;> rfl

/-- C8: building a pipeline from `x`, applying `f`, applying `g` and
unwrapping yields `g(f(x))`; starting from `1`, applying `+1` then `*2`
yields `4`. -/
theorem pipe_comp :
    (∀ (α β γ : Type) (x : α) (f : α → β) (g : β → γ),
      (((Pipe.new x).pipe f).pipe g).into_inner = g (f x))
    ∧ (((Pipe.new (1 : Nat)).pipe (fun x => x + 1)).pipe
        (fun x => x * 2)).into_inner = 4 :=
  ⟨fun _ _ _ _ _ _ => rfl, rfl⟩

/-- C9: converting an option into the asymmetric `Either` encoding and
extracting the same side recovers it: `as_left(o).left() == o` and
`as_right(o).right() == o` for every option `o`. -/
theorem option_round_trip :
    (∀ (α : Type) (o : Option α), (Either.as_left o).left = o)
    ∧ (∀ (β : Type) (o : Option β), (Either.as_right o).right = o) := by
  refine ⟨fun α o => ?_, fun β o => ?_⟩ <;> cases o <;> rfl

/-- C10: under the derived order, every `Left(a)` compares strictly below
every `Right(b)`; values of the same variant compare by their payloads; the
derived equality holds between `Left(a)` and `Left(b)` exactly when the
payloads are equal and never across variants; and whenever the payload
comparators agree with the payload equalities, `cmp` returns `eq` exactly
when `beq` returns `true`. -/
theorem derived_order_spec :
    (∀ (α β : Type) (cmpl : α → α → Ordering) (cmpr : β → β → Ordering)
        (a : α) (b : β),
      Either.cmp cmpl cmpr (Either.Left a) (Either.Right b) = Ordering.lt
      ∧ Either.cmp cmpl cmpr (Either.Right b) (Either.Left a) = Ordering.gt)
    ∧ (∀ (α β : Type) (cmpl : α → α → Ordering) (cmpr : β → β → Ordering)
        (a b : α) (x y : β),
      Either.cmp cmpl cmpr (Either.Left a) (Either.Left b) = cmpl a b
      ∧ Either.cmp cmpl cmpr (Either.Right x : Either α β) (Either.Right y)
          = cmpr x y)
    ∧ (∀ (α β : Type) (eql : α → α → Bool) (eqr : β → β → Bool)
        (a b : α) (r : β),
      Either.beq eql eqr (Either.Left a) (Either.Left b : Either α β) = eql a b
      ∧ Either.beq eql eqr (Either.Left a) (Either.Right r) = false
      ∧ Either.beq eql eqr (Either.Right r) (Either.Left a) = false)
    ∧ (∀ (α β : Type) (cmpl : α → α → Ordering) (cmpr : β → β → Ordering)
        (eql : α → α → Bool) (eqr : β → β → Bool),
      (∀ a b : α, cmpl a b = Ordering.eq ↔ eql a b = true) →
      (∀ a b : β, cmpr a b = Ordering.eq ↔ eqr a b = true) →
      ∀ x y : Either α β,
        Either.cmp cmpl cmpr x y = Ordering.eq
          ↔ Either.beq eql eqr x y = true) := by
  refine ⟨fun α β cmpl cmpr a b => ⟨rfl, rfl⟩,
    fun α β cmpl cmpr a b x y => ⟨rfl, rfl⟩,
    fun α β eql eqr a b r => ⟨rfl, rfl, rfl⟩,
    fun α β cmpl cmpr eql eqr hl hr x y => ?_⟩
  cases x <;> cases y <;>
    simp [Either.cmp, Either.beq, hl, hr]

/-- Witness for C10: consistency of order and equality on `Bool` payloads
with `compare` and boolean equality. -/
theorem derived_order_spec_witness :
    Either.cmp compare compare
        (Either.Left true : Either Bool Bool) (Either.Left true) = Ordering.eq
      ↔ Either.beq (fun a b => a == b) (fun a b => a == b)
        (Either.Left true : Either Bool Bool) (Either.Left true) = true :=
  derived_order_spec.2.2.2 Bool Bool compare compare
    (fun a b => a == b) (fun a b => a == b)
    (by decide) (by decide) (Either.Left true) (Either.Left true)

end Aurars
